import Mathlib

/- Shallow embedding of the scip.js bridge layer (src/scip_api.c).

   Native SCIP objects (SCIP_VAR*, SCIP_CONS*, SCIP_ROW*) are modeled by their
   identity as a Nat, with 0 standing for the NULL pointer.  Outcomes of native
   SCIP calls that this layer only observes (return codes of SCIPcreateVarBasic,
   SCIPaddPricedVar, SCIPaddVarToRow, SCIPaddCoefLinear, SCIPsolve, the
   SCIPgetStatus value, the fresh pointer of a created variable, whether the
   current node has an LP) enter the definitions as explicit oracle parameters.
   SCIP_Real is modeled by Rat.  realloc is modeled as always succeeding, so
   the growth-failure sentinel path of the registries never triggers here.
   Calls to SCIPinterruptSolve are tracked by an interrupt-request counter. -/

/-- SCIP_SUCCESS of SCIP's type_result.h. -/
def SCIP_SUCCESS : Int := 17

/-- SCIP_DIDNOTRUN of SCIP's type_result.h. -/
def SCIP_DIDNOTRUN : Int := 1

/-- SCIP_INVALID sentinel (the double literal 1e99) marking an unset SCIP_Real. -/
def SCIP_INVALID : Rat := 10 ^ 99

/-- One handle registry: src/scip_api.c keeps three of these
    (var_registry, cons_registry, row_registry), each an entries array
    with a size and a capacity. -/
structure Registry where
  entries : List Nat
  capacity : Nat
deriving DecidableEq

/-- The while-loop of ensure*RegistryCapacity: double newcap until it reaches
    needed.  The 0 < newcap guard makes the function total; the source only
    ever enters the loop with newcap at least 64. -/
def growCapacity (newcap needed : Nat) : Nat :=
  if 0 < newcap ∧ newcap < needed then growCapacity (newcap * 2) needed else newcap
termination_by needed - newcap
decreasing_by
  simp_wf
  omega

/-- ensureVarRegistryCapacity / ensureConsRegistryCapacity /
    ensureRowRegistryCapacity: keep the capacity if it suffices, else start
    from 64 (or the current capacity) and double.  The realloc is modeled as
    succeeding, so the result is the new capacity rather than a success flag. -/
def ensureRegistryCapacity (cap needed : Nat) : Nat :=
  if needed ≤ cap then cap
  else growCapacity (if cap = 0 then 64 else cap) needed

/-- The identity-scan loop of registerVarHandle / registerConsHandle /
    registerRowHandle: walk the entries from index idx; on the first identity
    match return that 1-based handle. -/
def scanForHandle (obj : Nat) : List Nat → Nat → Option Nat
  | [], _ => none
  | x :: rest, idx => if x = obj then some (idx + 1) else scanForHandle obj rest (idx + 1)

/-- registerVarHandle / registerConsHandle / registerRowHandle: reject NULL
    with -1, return the existing handle on an identity match, otherwise grow
    and append, returning the new 1-based handle (the new size). -/
def registerHandle (r : Registry) (obj : Nat) : Int × Registry :=
  if obj = 0 then (-1, r)
  else
    match scanForHandle obj r.entries 0 with
    | some h => ((h : Int), r)
    | none =>
        let newcap := ensureRegistryCapacity r.capacity (r.entries.length + 1)
        (((r.entries.length + 1 : Nat) : Int), ⟨r.entries ++ [obj], newcap⟩)

/-- getVarByHandle / getConsByHandle / getRowByHandle: a handle at most 0 or
    beyond the current size resolves to nothing; otherwise index entry
    handle - 1. -/
def getByHandle (r : Registry) (id : Int) : Option Nat :=
  if id ≤ 0 ∨ (r.entries.length : Int) < id then none
  else r.entries.get? (id.toNat - 1)

/-- A sequence of register calls against one registry, keeping only the final
    registry state. -/
def registerMany (r : Registry) (objs : List Nat) : Registry :=
  objs.foldl (fun acc o => (registerHandle acc o).2) r

/-- The mutable pricing globals of src/scip_api.c: the pending per-round
    outputs written by the external routine and the diagnostics counters. -/
structure PricingState where
  currentMode : Int
  lastMode : Int
  redcostCalls : Nat
  farkasCalls : Nat
  round : Nat
  lastResult : Int
  pendingResult : Int
  pendingLowerbound : Rat
  pendingStopearly : Bool
  pendingAbortround : Bool
  addedVarsThisCall : Nat
  pricedVarsAdded : Nat
deriving DecidableEq

/-- The whole bridge state: the single SCIP instance (tracked only as
    present or absent), the three handle registries, the pricing globals, the
    four JS callback enable flags, the one-shot pricer-plugin flag, and a
    counter of SCIPinterruptSolve requests issued by this layer. -/
structure ApiState where
  hasInstance : Bool
  vars : Registry
  conss : Registry
  rows : Registry
  pricing : PricingState
  jsIncumbentCallback : Int
  jsNodeCallback : Int
  jsPricerRedcostCallback : Int
  jsPricerFarkasCallback : Int
  jsPricerIncluded : Bool
  interrupts : Nat
deriving DecidableEq

def getVarByHandle (s : ApiState) (id : Int) : Option Nat := getByHandle s.vars id

def getConsByHandle (s : ApiState) (id : Int) : Option Nat := getByHandle s.conss id

def getRowByHandle (s : ApiState) (id : Int) : Option Nat := getByHandle s.rows id

/-- The values resetPricingState assigns, which also are the C globals'
    initial values. -/
def initialPricingState : PricingState :=
  ⟨0, 0, 0, 0, 0, SCIP_DIDNOTRUN, SCIP_SUCCESS, SCIP_INVALID, false, false, 0, 0⟩

/-- A convenient concrete state: instance created, empty registries, pricing
    globals at their initial values, all callbacks disabled. -/
def baseState : ApiState :=
  ⟨true, ⟨[], 0⟩, ⟨[], 0⟩, ⟨[], 0⟩, initialPricingState, 0, 0, 0, 0, false, 0⟩

/-- The recurring error pattern of the pricer column-injection functions:
    pending_pricer_abortround = TRUE and pending_pricer_result =
    SCIP_DIDNOTRUN, with nothing else touched. -/
def markRoundAbort (s : ApiState) : ApiState :=
  { s with pricing :=
      { s.pricing with pendingAbortround := true, pendingResult := SCIP_DIDNOTRUN } }

/-- The native-failure pattern of the batch injection loops: additionally
    pending_pricer_stopearly = TRUE and one SCIPinterruptSolve request. -/
def markRoundAbortInterrupt (s : ApiState) : ApiState :=
  { s with
      pricing := { s.pricing with pendingAbortround := true, pendingResult := SCIP_DIDNOTRUN, pendingStopearly := true },
      interrupts := s.interrupts + 1 }

/-- scip_pricer_set_result: store the pending result and mirror it into
    last_pricing_result. -/
def scip_pricer_set_result (s : ApiState) (code : Int) : ApiState :=
  { s with pricing := { s.pricing with pendingResult := code, lastResult := code } }

/-- scip_pricer_set_lowerbound. -/
def scip_pricer_set_lowerbound (s : ApiState) (v : Rat) : ApiState :=
  { s with pricing := { s.pricing with pendingLowerbound := v } }

/-- scip_pricer_set_stopearly. -/
def scip_pricer_set_stopearly (s : ApiState) (b : Bool) : ApiState :=
  { s with pricing := { s.pricing with pendingStopearly := b } }

/-- scip_pricer_abort_round: set abortround, force DIDNOTRUN and stopearly,
    and, when an instance exists, immediately request a solve interrupt. -/
def scip_pricer_abort_round (s : ApiState) : ApiState :=
  { s with
      pricing := { s.pricing with pendingAbortround := true, pendingResult := SCIP_DIDNOTRUN, pendingStopearly := true },
      interrupts := if s.hasInstance then s.interrupts + 1 else s.interrupts }

/-- scip_pricer_add_priced_var.  name carries NULL as none; newVar is the
    pointer SCIPcreateVarBasic would produce, createOk and addOk the success
    of SCIPcreateVarBasic and SCIPaddPricedVar. -/
def scip_pricer_add_priced_var (s : ApiState) (name : Option String)
    (newVar : Nat) (createOk addOk : Bool) : Int × ApiState :=
  if s.hasInstance = false || name.isNone then (-1, markRoundAbort s)
  else if createOk = false || newVar = 0 then (-1, markRoundAbort s)
  else if addOk = false then (-1, markRoundAbort s)
  else
    let res := registerHandle s.vars newVar
    (res.1, { s with
        vars := res.2,
        pricing := { s.pricing with pricedVarsAdded := s.pricing.pricedVarsAdded + 1, addedVarsThisCall := s.pricing.addedVarsThisCall + 1 } })

/-- scip_pricer_add_var_to_rows_batch.  rowIds and vals carry NULL as none
    (a negative nnz is unrepresentable in the list model); nativeOk i is the
    success of the i-th SCIPaddVarToRow.  The source returns at the first
    invalid handle and at the first native failure; since the error writes
    are constant assignments, checking all entries yields the same state. -/
def scip_pricer_add_var_to_rows_batch (s : ApiState) (varId : Int)
    (rowIds : Option (List Int)) (vals : Option (List Rat))
    (nativeOk : List Bool) : Int × ApiState :=
  if s.hasInstance = false || rowIds.isNone || vals.isNone then
    (-1, markRoundAbort s)
  else
    match getVarByHandle s varId with
    | none => (-1, markRoundAbort s)
    | some _ =>
        let rids := rowIds.getD []
        if rids.all (fun h => (getRowByHandle s h).isSome) = false then
          (-1, markRoundAbort s)
        else if (List.range rids.length).all (fun i => nativeOk.getD i true) = false then
          (-1, markRoundAbortInterrupt s)
        else (1, s)

/-- scip_pricer_add_var_to_conss_batch, the constraint-side twin using
    SCIPaddCoefLinear per entry. -/
def scip_pricer_add_var_to_conss_batch (s : ApiState) (varId : Int)
    (consIds : Option (List Int)) (vals : Option (List Rat))
    (nativeOk : List Bool) : Int × ApiState :=
  if s.hasInstance = false || consIds.isNone || vals.isNone then
    (-1, markRoundAbort s)
  else
    match getVarByHandle s varId with
    | none => (-1, markRoundAbort s)
    | some _ =>
        let cids := consIds.getD []
        if cids.all (fun h => (getConsByHandle s h).isSome) = false then
          (-1, markRoundAbort s)
        else if (List.range cids.length).all (fun i => nativeOk.getD i true) = false then
          (-1, markRoundAbortInterrupt s)
        else (1, s)

/-- One operation the external pricing routine may perform against the bridge
    while a pricing round is active; each constructor bundles the oracle data
    of the corresponding exported function. -/
inductive PricerOp where
  | setResult (code : Int)
  | setLowerbound (v : Rat)
  | setStopearly (b : Bool)
  | abortRound
  | addPricedVar (name : Option String) (newVar : Nat) (createOk addOk : Bool)
  | addVarToRowsBatch (varId : Int) (rowIds : Option (List Int))
      (vals : Option (List Rat)) (nativeOk : List Bool)
  | addVarToConssBatch (varId : Int) (consIds : Option (List Int))
      (vals : Option (List Rat)) (nativeOk : List Bool)
deriving DecidableEq

/-- Dispatch one callback-side operation, keeping the state (the value the
    operation returns to the external routine is dropped). -/
def runPricerOp (s : ApiState) (op : PricerOp) : ApiState :=
  match op with
  | .setResult code => scip_pricer_set_result s code
  | .setLowerbound v => scip_pricer_set_lowerbound s v
  | .setStopearly b => scip_pricer_set_stopearly s b
  | .abortRound => scip_pricer_abort_round s
  | .addPricedVar name nv cOk aOk => (scip_pricer_add_priced_var s name nv cOk aOk).2
  | .addVarToRowsBatch v r vl ok => (scip_pricer_add_var_to_rows_batch s v r vl ok).2
  | .addVarToConssBatch v c vl ok => (scip_pricer_add_var_to_conss_batch s v c vl ok).2

/-- Result of one reduced-cost pricing invocation: the final bridge state,
    whether the external callback was called out to, and the values the hook
    leaves in the solver's lowerbound, stopearly and result output slots. -/
structure RedcostOut where
  state : ApiState
  calledOut : Bool
  lbSlot : Rat
  stopearlySlot : Bool
  resultSlot : Int

/-- Result of one Farkas pricing invocation. -/
structure FarkasOut where
  state : ApiState
  calledOut : Bool
  resultSlot : Int

/-- The entry block of pricerRedcostJs: set the mode markers, bump the
    redcost-call and round counters, and reset every per-call output to its
    default. -/
def redcostEntry (s : ApiState) : ApiState :=
  { s with pricing :=
      { s.pricing with currentMode := 1, lastMode := 1, redcostCalls := s.pricing.redcostCalls + 1, round := s.pricing.round + 1, addedVarsThisCall := 0, pendingResult := SCIP_SUCCESS, pendingLowerbound := SCIP_INVALID, pendingStopearly := false, pendingAbortround := false } }

/-- The entry block of pricerFarkasJs: set the mode markers, bump the
    farkas-call and round counters, zero addedVarsThisCall and reset the
    pending result and abortround flag.  The pending lowerbound and
    stopearly flag are not touched here. -/
def farkasEntry (s : ApiState) : ApiState :=
  { s with pricing :=
      { s.pricing with currentMode := 2, lastMode := 2, farkasCalls := s.pricing.farkasCalls + 1, round := s.pricing.round + 1, addedVarsThisCall := 0, pendingResult := SCIP_SUCCESS, pendingAbortround := false } }

/-- The exit check of pricerRedcostJs: when the round was aborted, force the
    pending result to DIDNOTRUN and the pending stopearly flag to TRUE, and
    request a solve interrupt. -/
def redcostAbortCheck (s : ApiState) : ApiState :=
  if s.pricing.pendingAbortround then
    { s with
        pricing := { s.pricing with pendingResult := SCIP_DIDNOTRUN, pendingStopearly := true },
        interrupts := s.interrupts + 1 }
  else s

/-- The exit check of pricerFarkasJs: when the round was aborted, force the
    pending result to DIDNOTRUN and request a solve interrupt (no stopearly
    output exists on the Farkas path). -/
def farkasAbortCheck (s : ApiState) : ApiState :=
  if s.pricing.pendingAbortround then
    { s with
        pricing := { s.pricing with pendingResult := SCIP_DIDNOTRUN },
        interrupts := s.interrupts + 1 }
  else s

/-- pricerRedcostJs: enter, call out to the external routine when the redcost
    callback flag is set (the callout modeled as the list of bridge operations
    the routine performs), run the abort check, then write the output slots
    (the lowerbound slot only when the pending lowerbound differs from the
    unset sentinel, keeping lbIn otherwise), mirror the result into
    last_pricing_result and leave pricing mode none. -/
def pricerRedcostJs (s : ApiState) (ops : List PricerOp) (lbIn : Rat) : RedcostOut :=
  let s0 := redcostEntry s
  let called := s0.jsPricerRedcostCallback != 0
  let s1 := if called then ops.foldl runPricerOp s0 else s0
  let s2 := redcostAbortCheck s1
  let lbOut := if s2.pricing.pendingLowerbound ≠ SCIP_INVALID then s2.pricing.pendingLowerbound else lbIn
  let s3 := { s2 with pricing := { s2.pricing with lastResult := s2.pricing.pendingResult, currentMode := 0 } }
  ⟨s3, called, lbOut, s2.pricing.pendingStopearly, s2.pricing.pendingResult⟩

/-- pricerFarkasJs: enter; when the current node has no LP relaxation,
    short-circuit to result DIDNOTRUN without calling out; otherwise call out
    when the Farkas callback flag is set, run the abort check, mirror the
    result and leave pricing mode none. -/
def pricerFarkasJs (s : ApiState) (hasLP : Bool) (ops : List PricerOp) : FarkasOut :=
  let s0 := farkasEntry s
  if hasLP = false then
    ⟨{ s0 with pricing := { s0.pricing with pendingResult := SCIP_DIDNOTRUN, lastResult := SCIP_DIDNOTRUN, currentMode := 0 } }, false, SCIP_DIDNOTRUN⟩
  else
    let called := s0.jsPricerFarkasCallback != 0
    let s1 := if called then ops.foldl runPricerOp s0 else s0
    let s2 := farkasAbortCheck s1
    ⟨{ s2 with pricing := { s2.pricing with lastResult := s2.pricing.pendingResult, currentMode := 0 } }, called, s2.pricing.pendingResult⟩

/-- eventExecBestSol: with a best solution present, call out to the JS
    incumbent hook exactly when the incumbent callback flag is nonzero.  The
    returned Bool says whether the external callback was invoked. -/
def eventExecBestSol (s : ApiState) (bestSol : Option Rat) : Bool :=
  bestSol.isSome && (s.jsIncumbentCallback != 0)

/-- eventExecNode: call out to the JS node hook exactly when the node
    callback flag is nonzero. -/
def eventExecNode (s : ApiState) : Bool :=
  s.jsNodeCallback != 0

/-- clearRegistries: free all three registries, dropping every entry and all
    capacity. -/
def clearRegistries (s : ApiState) : ApiState :=
  { s with vars := ⟨[], 0⟩, conss := ⟨[], 0⟩, rows := ⟨[], 0⟩ }

/-- resetPricingState: every pricing global back to its initial value. -/
def resetPricingState (s : ApiState) : ApiState :=
  { s with pricing := initialPricingState }

/-- clearCurrentProblem releases the native transformed state and then the
    native problem state; none of the modeled fields change. -/
def clearCurrentProblem (s : ApiState) : ApiState := s

/-- scip_reset: tear down the current problem, reset the pricing globals,
    drop all registries and forget the pricer plugin and its callback flags. -/
def scip_reset (s : ApiState) : ApiState :=
  let s1 := clearRegistries (resetPricingState (clearCurrentProblem s))
  { s1 with jsPricerIncluded := false, jsPricerRedcostCallback := 0, jsPricerFarkasCallback := 0 }

/-- scip_problem_clear: without an instance report failure and change
    nothing; otherwise the same teardown as scip_reset, reporting success. -/
def scip_problem_clear (s : ApiState) : Int × ApiState :=
  if s.hasInstance = false then (0, s)
  else
    let s1 := clearRegistries (resetPricingState (clearCurrentProblem s))
    (1, { s1 with jsPricerIncluded := false, jsPricerRedcostCallback := 0, jsPricerFarkasCallback := 0 })

/-- scip_problem_begin: without an instance report failure; otherwise tear
    down exactly as scip_problem_clear, then create the fresh problem and set
    the objective sense, failing softly when either native call fails. -/
def scip_problem_begin (s : ApiState) (_nameEmpty _maximize createProbOk setObjOk : Bool) : Int × ApiState :=
  if s.hasInstance = false then (0, s)
  else
    let s1 := clearRegistries (resetPricingState (clearCurrentProblem s))
    let s2 := { s1 with jsPricerIncluded := false, jsPricerRedcostCallback := 0, jsPricerFarkasCallback := 0 }
    if createProbOk = false then (0, s2)
    else if setObjOk = false then (0, s2)
    else (1, s2)

/-- The SCIPgetStatus outcomes scip_solve distinguishes: the four named
    stati of its switch, and one constructor for every other status hitting
    the default branch. -/
inductive ScipStatus where
  | optimal
  | infeasible
  | unbounded
  | timelimit
  | otherStatus
deriving DecidableEq

/-- The switch at the end of scip_solve. -/
def statusToCode : ScipStatus → Int
  | .optimal => 0
  | .infeasible => 1
  | .unbounded => 2
  | .timelimit => 3
  | .otherStatus => 4

/-- scip_solve: without an instance return -1; otherwise zero the pricing
    mode and the per-call added-vars counter, run SCIPsolve (its success is
    the solveOk oracle, the resulting SCIPgetStatus the status oracle),
    return -1 on native failure and the switch translation otherwise. -/
def scip_solve (s : ApiState) (solveOk : Bool) (status : ScipStatus) : Int × ApiState :=
  if s.hasInstance = false then (-1, s)
  else
    let s1 := { s with pricing := { s.pricing with currentMode := 0, addedVarsThisCall := 0 } }
    if solveOk = false then (-1, s1)
    else (statusToCode status, s1)

theorem scanForHandle_eq_none {obj : Nat} :
    ∀ (l : List Nat) (idx : Nat), scanForHandle obj l idx = none → obj ∉ l := by
  intro l
  induction l with
  | nil => intro idx _; simp
  | cons x rest ih =>
      intro idx h
      simp only [scanForHandle] at h
      split at h
      · exact absurd h (by simp)
      · next hx =>
          simp only [List.mem_cons, not_or]
          exact ⟨fun he => hx (he ▸ rfl), ih (idx + 1) h⟩

theorem scanForHandle_eq_some {obj : Nat} :
    ∀ (l : List Nat) (idx h : Nat), scanForHandle obj l idx = some h →
      idx + 1 ≤ h ∧ h ≤ idx + l.length ∧ l.get? (h - idx - 1) = some obj := by
  intro l
  induction l with
  | nil => intro idx h hscan; simp [scanForHandle] at hscan
  | cons x rest ih =>
      intro idx h hscan
      simp only [scanForHandle] at hscan
      split at hscan
      · next hx =>
          obtain rfl : idx + 1 = h := Option.some.inj hscan
          refine ⟨le_refl _, by simp only [List.length_cons]; omega, ?_⟩
          simp [hx]
      · next hx =>
          obtain ⟨h1, h2, h3⟩ := ih (idx + 1) h hscan
          refine ⟨by omega, by simp only [List.length_cons] at h2 ⊢; omega, ?_⟩
          have hk : h - idx - 1 = (h - (idx + 1) - 1) + 1 := by omega
          rw [hk, List.get?_cons_succ]
          exact h3

theorem scanForHandle_append_some {obj : Nat} :
    ∀ (l l' : List Nat) (idx h : Nat), scanForHandle obj l idx = some h →
      scanForHandle obj (l ++ l') idx = some h := by
  intro l
  induction l with
  | nil => intro l' idx h hscan; simp [scanForHandle] at hscan
  | cons x rest ih =>
      intro l' idx h hscan
      simp only [scanForHandle] at hscan ⊢
      split at hscan
      · next hx => simpa [hx] using hscan
      · next hx =>
          rw [if_neg hx]
          exact ih l' (idx + 1) h hscan

theorem scanForHandle_append_none {obj : Nat} :
    ∀ (l l' : List Nat) (idx : Nat), scanForHandle obj l idx = none →
      scanForHandle obj (l ++ l') idx = scanForHandle obj l' (idx + l.length) := by
  intro l
  induction l with
  | nil => intro l' idx _; simp [scanForHandle]
  | cons x rest ih =>
      intro l' idx hscan
      simp only [scanForHandle] at hscan
      split at hscan
      · exact absurd hscan (by simp)
      · next hx =>
          rw [List.cons_append]
          simp only [scanForHandle]
          rw [if_neg hx, ih l' (idx + 1) hscan]
          congr 1
          simp
          omega

theorem registerHandle_entries_ext (r : Registry) (obj : Nat) :
    ∃ ext, (registerHandle r obj).2.entries = r.entries ++ ext := by
  unfold registerHandle
  split
  · exact ⟨[], by simp⟩
  · split
    · exact ⟨[], by simp⟩
    · exact ⟨[obj], rfl⟩

theorem registerMany_entries_ext :
    ∀ (objs : List Nat) (r : Registry), ∃ ext, (registerMany r objs).entries = r.entries ++ ext := by
  intro objs
  induction objs with
  | nil => intro r; exact ⟨[], by simp [registerMany]⟩
  | cons o rest ih =>
      intro r
      obtain ⟨e1, he1⟩ := registerHandle_entries_ext r o
      obtain ⟨e2, he2⟩ := ih (registerHandle r o).2
      refine ⟨e1 ++ e2, ?_⟩
      have : registerMany r (o :: rest) = registerMany (registerHandle r o).2 rest := rfl
      rw [this, he2, he1, List.append_assoc]

theorem getByHandle_natCast (r : Registry) (hN : Nat) (h1 : 1 ≤ hN)
    (h2 : hN ≤ r.entries.length) : getByHandle r (hN : Int) = r.entries.get? (hN - 1) := by
  unfold getByHandle
  rw [if_neg]
  · simp
  · push_neg
    constructor <;> [exact_mod_cast h1; exact_mod_cast h2]

theorem registerHandle_resolve (r : Registry) (obj : Nat) (hobj : obj ≠ 0) :
    ∃ hN : Nat, (registerHandle r obj).1 = (hN : Int) ∧ 1 ≤ hN ∧
      hN ≤ (registerHandle r obj).2.entries.length ∧
      (registerHandle r obj).2.entries.get? (hN - 1) = some obj := by
  unfold registerHandle
  rw [if_neg hobj]
  cases hscan : scanForHandle obj r.entries 0 with
  | some h =>
      obtain ⟨hb1, hb2, hb3⟩ := scanForHandle_eq_some r.entries 0 h hscan
      exact ⟨h, rfl, by omega, by simpa using hb2, by simpa using hb3⟩
  | none =>
      refine ⟨r.entries.length + 1, rfl, by omega, by simp, ?_⟩
      simp only [Nat.add_sub_cancel]
      simp [List.get?_eq_getElem?, List.getElem?_concat_length]

theorem registerHandle_scan_after (r : Registry) (obj : Nat) (hobj : obj ≠ 0) :
    ∃ hN : Nat, (registerHandle r obj).1 = (hN : Int) ∧
      scanForHandle obj (registerHandle r obj).2.entries 0 = some hN := by
  unfold registerHandle
  rw [if_neg hobj]
  cases hscan : scanForHandle obj r.entries 0 with
  | some h => exact ⟨h, rfl, hscan⟩
  | none =>
      refine ⟨r.entries.length + 1, rfl, ?_⟩
      have := scanForHandle_append_none r.entries [obj] 0 hscan
      simpa [scanForHandle] using this

theorem getByHandle_mono (r r' : Registry) (ext : List Nat)
    (hent : r'.entries = r.entries ++ ext) (id : Int) (v : Nat)
    (hv : getByHandle r id = some v) : getByHandle r' id = some v := by
  unfold getByHandle at hv ⊢
  split at hv
  · exact absurd hv (by simp)
  · next hc =>
      push_neg at hc
      obtain ⟨hc1, hc2⟩ := hc
      have hidx : id.toNat - 1 < r.entries.length := by omega
      rw [if_neg]
      · rw [hent, List.get?_eq_getElem?, List.getElem?_append_left hidx, ← List.get?_eq_getElem?]
        exact hv
      · rw [hent]
        push_neg
        simp only [List.length_append]
        push_cast
        omega

theorem registerHandle_of_scan_some (r : Registry) (obj : Nat) (hobj : obj ≠ 0)
    (h : Nat) (hscan : scanForHandle obj r.entries 0 = some h) :
    registerHandle r obj = ((h : Int), r) := by
  unfold registerHandle
  rw [if_neg hobj, hscan]

/-- C1: registering a native object and then resolving the returned handle
    yields that object back; re-registering the object returns the handle it
    already got (identity scan before appending); registering a distinct
    object never yields that handle; and under any further sequence of
    register calls on the same registry the handle keeps resolving to the
    object and re-registration keeps returning it, until the registry is
    cleared.  This is the one registry algorithm instantiated three times
    (registerVarHandle/getVarByHandle, registerConsHandle/getConsByHandle,
    registerRowHandle/getRowByHandle). -/
theorem register_resolve_roundtrip (r : Registry) (obj : Nat) (hobj : obj ≠ 0) :
    getByHandle (registerHandle r obj).2 (registerHandle r obj).1 = some obj ∧
    (registerHandle (registerHandle r obj).2 obj).1 = (registerHandle r obj).1 ∧
    (∀ obj2 : Nat, obj2 ≠ 0 → obj2 ≠ obj →
      (registerHandle (registerHandle r obj).2 obj2).1 ≠ (registerHandle r obj).1) ∧
    (∀ objs : List Nat,
      getByHandle (registerMany (registerHandle r obj).2 objs) (registerHandle r obj).1 = some obj ∧
      (registerHandle (registerMany (registerHandle r obj).2 objs) obj).1 = (registerHandle r obj).1) := by
  obtain ⟨hN, hNeq, hN1, hNlen, hNget⟩ := registerHandle_resolve r obj hobj
  obtain ⟨hM, hMeq, hMscan⟩ := registerHandle_scan_after r obj hobj
  have hresolve : getByHandle (registerHandle r obj).2 (registerHandle r obj).1 = some obj := by
    rw [hNeq, getByHandle_natCast _ hN hN1 hNlen]
    exact hNget
  refine ⟨hresolve, ?_, ?_, ?_⟩
  · rw [registerHandle_of_scan_some _ obj hobj hM hMscan]
    exact hMeq.symm
  · intro obj2 h2 hne heq
    obtain ⟨ext2, hext2⟩ := registerHandle_entries_ext (registerHandle r obj).2 obj2
    obtain ⟨kN, hkeq, hk1, hklen, hkget⟩ := registerHandle_resolve (registerHandle r obj).2 obj2 h2
    have hres2 : getByHandle (registerHandle (registerHandle r obj).2 obj2).2
        (registerHandle (registerHandle r obj).2 obj2).1 = some obj2 := by
      rw [hkeq, getByHandle_natCast _ kN hk1 hklen]
      exact hkget
    have hres1 : getByHandle (registerHandle (registerHandle r obj).2 obj2).2
        (registerHandle r obj).1 = some obj := by
      exact getByHandle_mono _ _ ext2 hext2 _ obj hresolve
    rw [heq, hres1] at hres2
    exact hne (Option.some.inj hres2).symm
  · intro objs
    obtain ⟨ext, hext⟩ := registerMany_entries_ext objs (registerHandle r obj).2
    constructor
    · exact getByHandle_mono _ _ ext hext _ obj hresolve
    · have hscan2 : scanForHandle obj (registerMany (registerHandle r obj).2 objs).entries 0 = some hM := by
        rw [hext]
        exact scanForHandle_append_some _ ext 0 hM hMscan
      rw [registerHandle_of_scan_some _ obj hobj hM hscan2]
      exact hMeq.symm

/-- Witness for C1 at a concrete registry: register object 7 into the empty
    registry, then resolve, re-register, register a distinct object 8, and
    register a further sequence. -/
theorem register_resolve_roundtrip_witness :
    getByHandle (registerHandle ⟨[], 0⟩ 7).2 (registerHandle ⟨[], 0⟩ 7).1 = some 7 ∧
    (registerHandle (registerHandle ⟨[], 0⟩ 7).2 7).1 = (registerHandle ⟨[], 0⟩ 7).1 ∧
    (registerHandle (registerHandle ⟨[], 0⟩ 7).2 8).1 ≠ (registerHandle ⟨[], 0⟩ 7).1 ∧
    getByHandle (registerMany (registerHandle ⟨[], 0⟩ 7).2 [9, 7, 10]) (registerHandle ⟨[], 0⟩ 7).1 = some 7 ∧
    (registerHandle (registerMany (registerHandle ⟨[], 0⟩ 7).2 [9, 7, 10]) 7).1 = (registerHandle ⟨[], 0⟩ 7).1 := by
  obtain ⟨a, b, c, d⟩ := register_resolve_roundtrip ⟨[], 0⟩ 7 (by decide)
  exact ⟨a, b, c 8 (by decide) (by decide), (d [9, 7, 10]).1, (d [9, 7, 10]).2⟩

theorem runPricerOp_counters (s : ApiState) (op : PricerOp) :
    (runPricerOp s op).pricing.redcostCalls = s.pricing.redcostCalls ∧
    (runPricerOp s op).pricing.farkasCalls = s.pricing.farkasCalls ∧
    (runPricerOp s op).pricing.round = s.pricing.round ∧
    (runPricerOp s op).hasInstance = s.hasInstance ∧
    (runPricerOp s op).jsPricerRedcostCallback = s.jsPricerRedcostCallback ∧
    (runPricerOp s op).jsPricerFarkasCallback = s.jsPricerFarkasCallback := by
  cases op with
  | setResult c => simp [runPricerOp, scip_pricer_set_result]
  | setLowerbound v => simp [runPricerOp, scip_pricer_set_lowerbound]
  | setStopearly b => simp [runPricerOp, scip_pricer_set_stopearly]
  | abortRound => simp [runPricerOp, scip_pricer_abort_round]
  | addPricedVar name nv cOk aOk =>
      simp only [runPricerOp, scip_pricer_add_priced_var]
      split
      · simp [markRoundAbort]
      · split
        · simp [markRoundAbort]
        · split
          · simp [markRoundAbort]
          · simp
  | addVarToRowsBatch v r vl ok =>
      simp only [runPricerOp, scip_pricer_add_var_to_rows_batch]
      split
      · simp [markRoundAbort]
      · split
        · simp [markRoundAbort]
        · split
          · simp [markRoundAbort]
          · split
            · simp [markRoundAbortInterrupt]
            · simp
  | addVarToConssBatch v c vl ok =>
      simp only [runPricerOp, scip_pricer_add_var_to_conss_batch]
      split
      · simp [markRoundAbort]
      · split
        · simp [markRoundAbort]
        · split
          · simp [markRoundAbort]
          · split
            · simp [markRoundAbortInterrupt]
            · simp

theorem foldlRun_counters (ops : List PricerOp) : ∀ s : ApiState,
    ((ops.foldl runPricerOp s).pricing.redcostCalls = s.pricing.redcostCalls ∧
     (ops.foldl runPricerOp s).pricing.farkasCalls = s.pricing.farkasCalls ∧
     (ops.foldl runPricerOp s).pricing.round = s.pricing.round ∧
     (ops.foldl runPricerOp s).hasInstance = s.hasInstance ∧
     (ops.foldl runPricerOp s).jsPricerRedcostCallback = s.jsPricerRedcostCallback ∧
     (ops.foldl runPricerOp s).jsPricerFarkasCallback = s.jsPricerFarkasCallback) := by
  induction ops with
  | nil => intro s; simp
  | cons op rest ih =>
      intro s
      obtain ⟨a, b, c, d, e, f⟩ := ih (runPricerOp s op)
      obtain ⟨a2, b2, c2, d2, e2, f2⟩ := runPricerOp_counters s op
      simp only [List.foldl_cons]
      exact ⟨a.trans a2, b.trans b2, c.trans c2, d.trans d2, e.trans e2, f.trans f2⟩

/-- The last lower bound the callback sets during a round, if any. -/
def lastSetLb : List PricerOp → Option Rat
  | [] => none
  | op :: rest =>
      match lastSetLb rest with
      | some v => some v
      | none =>
          match op with
          | PricerOp.setLowerbound v => some v
          | _ => none

theorem runPricerOp_lb (s : ApiState) (op : PricerOp) :
    (runPricerOp s op).pricing.pendingLowerbound =
      (match op with
       | PricerOp.setLowerbound v => v
       | _ => s.pricing.pendingLowerbound) := by
  cases op with
  | setResult c => simp [runPricerOp, scip_pricer_set_result]
  | setLowerbound v => simp [runPricerOp, scip_pricer_set_lowerbound]
  | setStopearly b => simp [runPricerOp, scip_pricer_set_stopearly]
  | abortRound => simp [runPricerOp, scip_pricer_abort_round]
  | addPricedVar name nv cOk aOk =>
      simp only [runPricerOp, scip_pricer_add_priced_var]
      split
      · simp [markRoundAbort]
      · split
        · simp [markRoundAbort]
        · split
          · simp [markRoundAbort]
          · simp
  | addVarToRowsBatch v r vl ok =>
      simp only [runPricerOp, scip_pricer_add_var_to_rows_batch]
      split
      · simp [markRoundAbort]
      · split
        · simp [markRoundAbort]
        · split
          · simp [markRoundAbort]
          · split
            · simp [markRoundAbortInterrupt]
            · simp
  | addVarToConssBatch v c vl ok =>
      simp only [runPricerOp, scip_pricer_add_var_to_conss_batch]
      split
      · simp [markRoundAbort]
      · split
        · simp [markRoundAbort]
        · split
          · simp [markRoundAbort]
          · split
            · simp [markRoundAbortInterrupt]
            · simp

theorem foldlRun_lb (ops : List PricerOp) : ∀ s : ApiState,
    (ops.foldl runPricerOp s).pricing.pendingLowerbound =
      (match lastSetLb ops with
       | some v => v
       | none => s.pricing.pendingLowerbound) := by
  induction ops with
  | nil => intro s; simp [lastSetLb]
  | cons op rest ih =>
      intro s
      simp only [List.foldl_cons, lastSetLb]
      rw [ih (runPricerOp s op), runPricerOp_lb]
      cases hrest : lastSetLb rest with
      | some v => simp
      | none => cases op <;> simp

/-- The pure round-control operations (set result / lower bound / stop-early
    and abort-round, i.e. the callback operations that touch no registry and
    no native object). -/
def isCtrlOp : PricerOp → Bool
  | PricerOp.setResult _ => true
  | PricerOp.setLowerbound _ => true
  | PricerOp.setStopearly _ => true
  | PricerOp.abortRound => true
  | _ => false

def isAbortOp : PricerOp → Bool
  | PricerOp.abortRound => true
  | _ => false

theorem runCtrlOp_interrupts (s : ApiState) (op : PricerOp)
    (hc : isCtrlOp op = true) (hinst : s.hasInstance = true) :
    (runPricerOp s op).interrupts = s.interrupts + (if isAbortOp op then 1 else 0) ∧
    (runPricerOp s op).pricing.pendingAbortround = (s.pricing.pendingAbortround || isAbortOp op) := by
  cases op <;>
    simp_all [runPricerOp, isCtrlOp, isAbortOp, scip_pricer_set_result,
      scip_pricer_set_lowerbound, scip_pricer_set_stopearly, scip_pricer_abort_round]

theorem foldlCtrl_interrupts (ops : List PricerOp) : ∀ s : ApiState,
    s.hasInstance = true → (∀ op ∈ ops, isCtrlOp op = true) →
    ((ops.foldl runPricerOp s).interrupts = s.interrupts + ops.countP isAbortOp ∧
     (ops.foldl runPricerOp s).pricing.pendingAbortround =
       (s.pricing.pendingAbortround || ops.any isAbortOp)) := by
  induction ops with
  | nil => intro s _ _; simp
  | cons op rest ih =>
      intro s hinst hall
      have hop := hall op (by simp)
      have hrest : ∀ o ∈ rest, isCtrlOp o = true := fun o ho => hall o (by simp [ho])
      have hinst2 : (runPricerOp s op).hasInstance = true :=
        (runPricerOp_counters s op).2.2.2.1.trans hinst
      obtain ⟨hi, ha⟩ := runCtrlOp_interrupts s op hop hinst
      obtain ⟨hi2, ha2⟩ := ih (runPricerOp s op) hinst2 hrest
      simp only [List.foldl_cons, List.countP_cons, List.any_cons]
      constructor
      · rw [hi2, hi]
        cases h : isAbortOp op <;> simp [h]
        omega
      · rw [ha2, ha, Bool.or_assoc]

/-- C2 counterexample: one abortRound call during an active redcost round
    triggers TWO solve-interrupt requests, not exactly one — one inside
    scip_pricer_abort_round itself and a second one at round exit. -/
theorem abort_round_two_interrupts_cex :
    (pricerRedcostJs { baseState with jsPricerRedcostCallback := 1 } [PricerOp.abortRound] 0).state.interrupts = 2 ∧
    (pricerRedcostJs { baseState with jsPricerRedcostCallback := 1 } [PricerOp.abortRound] 0).state.interrupts ≠ 1 := by
  constructor <;> decide

/-- C2 (amended): abortRound called during an active redcost round forces
    resultSlot DIDNOTRUN and stopearlySlot true on exit, and triggers exactly
    two solve-interrupt requests: one immediately inside abort_round and one
    at round exit (stated for callbacks consisting of round-control
    operations with exactly one abortRound among them). -/
theorem redcost_abort_round_exit (s : ApiState) (ops : List PricerOp) (lbIn : Rat)
    (hinst : s.hasInstance = true) (hflag : s.jsPricerRedcostCallback ≠ 0)
    (hctrl : ∀ op ∈ ops, isCtrlOp op = true)
    (habort : ops.countP isAbortOp = 1) :
    (pricerRedcostJs s ops lbIn).resultSlot = SCIP_DIDNOTRUN ∧
    (pricerRedcostJs s ops lbIn).stopearlySlot = true ∧
    (pricerRedcostJs s ops lbIn).state.interrupts = s.interrupts + 2 := by
  have hcalled : ((redcostEntry s).jsPricerRedcostCallback != 0) = true := by
    have hfl : (redcostEntry s).jsPricerRedcostCallback = s.jsPricerRedcostCallback := rfl
    rw [hfl]
    exact bne_iff_ne.mpr hflag
  have hinst0 : (redcostEntry s).hasInstance = true := hinst
  obtain ⟨hfint, hfabort⟩ := foldlCtrl_interrupts ops (redcostEntry s) hinst0 hctrl
  have hpos : 0 < ops.countP isAbortOp := by omega
  have hany : ops.any isAbortOp = true := by
    rw [List.any_eq_true]
    obtain ⟨a, ha, hpa⟩ := List.countP_pos_iff.mp hpos
    exact ⟨a, ha, hpa⟩
  have habort1 : (ops.foldl runPricerOp (redcostEntry s)).pricing.pendingAbortround = true := by
    rw [hfabort]
    have : (redcostEntry s).pricing.pendingAbortround = false := rfl
    rw [this, hany]
    rfl
  have hint1 : (ops.foldl runPricerOp (redcostEntry s)).interrupts = s.interrupts + 1 := by
    rw [hfint, habort]
    rfl
  simp only [pricerRedcostJs, hcalled, if_true, redcostAbortCheck, habort1]
  simp [hint1]

/-- Witness for C2 (amended) at a concrete round: callback enabled, the
    external routine calls abortRound once. -/
theorem redcost_abort_round_exit_witness :
    (pricerRedcostJs { baseState with jsPricerRedcostCallback := 1 } [PricerOp.abortRound] 0).resultSlot = SCIP_DIDNOTRUN ∧
    (pricerRedcostJs { baseState with jsPricerRedcostCallback := 1 } [PricerOp.abortRound] 0).stopearlySlot = true ∧
    (pricerRedcostJs { baseState with jsPricerRedcostCallback := 1 } [PricerOp.abortRound] 0).state.interrupts =
      { baseState with jsPricerRedcostCallback := 1 }.interrupts + 2 :=
  redcost_abort_round_exit { baseState with jsPricerRedcostCallback := 1 } [PricerOp.abortRound] 0
    rfl (by decide) (by decide) (by decide)

theorem redcostAbortCheck_preserves (s : ApiState) :
    (redcostAbortCheck s).pricing.redcostCalls = s.pricing.redcostCalls ∧
    (redcostAbortCheck s).pricing.round = s.pricing.round ∧
    (redcostAbortCheck s).pricing.pendingLowerbound = s.pricing.pendingLowerbound := by
  unfold redcostAbortCheck
  split <;> simp

/-- C3 (amended): a Farkas pricing invocation with no current-node LP ends
    with result DIDNOTRUN, leaves addedVarsThisCall equal to zero (it is
    reset to zero at entry and no variable is added), and never invokes the
    external Farkas callback. -/
theorem farkas_no_lp_didnotrun (s : ApiState) (ops : List PricerOp) :
    (pricerFarkasJs s false ops).resultSlot = SCIP_DIDNOTRUN ∧
    (pricerFarkasJs s false ops).state.pricing.addedVarsThisCall = 0 ∧
    (pricerFarkasJs s false ops).calledOut = false ∧
    (pricerFarkasJs s false ops).state.pricing.lastResult = SCIP_DIDNOTRUN :=
  ⟨rfl, rfl, rfl, rfl⟩

/-- C3 counterexample: addedVarsThisCall is NOT left unchanged by a no-LP
    Farkas invocation — a prior value 1 (left over from an earlier round
    that added a column) is reset to 0 at entry. -/
theorem farkas_no_lp_added_vars_cex :
    ({ baseState with pricing := { initialPricingState with addedVarsThisCall := 1 } } : ApiState).pricing.addedVarsThisCall = 1 ∧
    (pricerFarkasJs { baseState with pricing := { initialPricingState with addedVarsThisCall := 1 } } false []).state.pricing.addedVarsThisCall = 0 ∧
    (pricerFarkasJs { baseState with pricing := { initialPricingState with addedVarsThisCall := 1 } } false []).state.pricing.addedVarsThisCall ≠
      ({ baseState with pricing := { initialPricingState with addedVarsThisCall := 1 } } : ApiState).pricing.addedVarsThisCall :=
  ⟨rfl, rfl, by decide⟩

/-- C4 (amended): at redcost entry all five per-round outputs are reset to
    their defaults (result SUCCESS, lower bound unset, stopearly false,
    abortround false, addedVarsThisCall 0); at Farkas entry result,
    abortround and addedVarsThisCall are reset while the pending lower bound
    and the pending stopearly flag retain their previous values (the Farkas
    path never reads either). -/
theorem pricing_entry_reset_split (s : ApiState) :
    ((redcostEntry s).pricing.pendingResult = SCIP_SUCCESS ∧
     (redcostEntry s).pricing.pendingLowerbound = SCIP_INVALID ∧
     (redcostEntry s).pricing.pendingStopearly = false ∧
     (redcostEntry s).pricing.pendingAbortround = false ∧
     (redcostEntry s).pricing.addedVarsThisCall = 0) ∧
    ((farkasEntry s).pricing.pendingResult = SCIP_SUCCESS ∧
     (farkasEntry s).pricing.pendingAbortround = false ∧
     (farkasEntry s).pricing.addedVarsThisCall = 0 ∧
     (farkasEntry s).pricing.pendingLowerbound = s.pricing.pendingLowerbound ∧
     (farkasEntry s).pricing.pendingStopearly = s.pricing.pendingStopearly) :=
  ⟨⟨rfl, rfl, rfl, rfl, rfl⟩, ⟨rfl, rfl, rfl, rfl, rfl⟩⟩

/-- C4 counterexample: the Farkas entry does NOT reset the per-round state
    to its defaults — a pending stopearly of true and a pending lower bound
    of 5 survive into the new round. -/
theorem farkas_entry_retains_cex :
    (farkasEntry { baseState with pricing := { initialPricingState with pendingStopearly := true, pendingLowerbound := 5 } }).pricing.pendingStopearly ≠ false ∧
    (farkasEntry { baseState with pricing := { initialPricingState with pendingStopearly := true, pendingLowerbound := 5 } }).pricing.pendingLowerbound = 5 :=
  ⟨by decide, rfl⟩

/-- C6: every reduced-cost pricing invocation bumps both the redcost-call
    counter and the round counter by exactly one, whatever the external
    callback does and whatever result the round ends with. -/
theorem redcost_increments_counters (s : ApiState) (ops : List PricerOp) (lbIn : Rat) :
    (pricerRedcostJs s ops lbIn).state.pricing.redcostCalls = s.pricing.redcostCalls + 1 ∧
    (pricerRedcostJs s ops lbIn).state.pricing.round = s.pricing.round + 1 := by
  have hentry1 : (redcostEntry s).pricing.redcostCalls = s.pricing.redcostCalls + 1 := rfl
  have hentry2 : (redcostEntry s).pricing.round = s.pricing.round + 1 := rfl
  obtain ⟨hf1, _, hf3, _, _, _⟩ := foldlRun_counters ops (redcostEntry s)
  obtain ⟨hc1, hc2, _⟩ := redcostAbortCheck_preserves (ops.foldl runPricerOp (redcostEntry s))
  obtain ⟨hd1, hd2, _⟩ := redcostAbortCheck_preserves (redcostEntry s)
  simp only [pricerRedcostJs]
  cases hcall : ((redcostEntry s).jsPricerRedcostCallback != 0) with
  | false =>
      simp only [hcall, Bool.false_eq_true, if_false]
      exact ⟨hd1.trans hentry1, hd2.trans hentry2⟩
  | true =>
      simp only [hcall, if_true]
      exact ⟨hc1.trans (hf1.trans hentry1), hc2.trans (hf3.trans hentry2)⟩

set_option maxRecDepth 8000 in
/-- C8 counterexample: calling set_lowerbound with the sentinel value itself
    is an explicit set during the round, yet the solver's output slot (prior
    value 7) is left untouched — so "written iff explicitly set" fails. -/
theorem redcost_lowerbound_sentinel_cex :
    lastSetLb [PricerOp.setLowerbound SCIP_INVALID] = some SCIP_INVALID ∧
    (pricerRedcostJs { baseState with jsPricerRedcostCallback := 1 } [PricerOp.setLowerbound SCIP_INVALID] 7).lbSlot = 7 := by
  constructor
  · rfl
  · decide

/-- C8 (amended): on redcost round exit the lower-bound output slot is
    written exactly when the last lower bound set during the round differs
    from the unset sentinel: with no set_lowerbound call the slot keeps its
    prior value, a last set value different from SCIP_INVALID is written,
    and a last set value equal to SCIP_INVALID leaves the slot unchanged. -/
theorem redcost_lowerbound_applied (s : ApiState) (ops : List PricerOp) (lbIn : Rat)
    (hflag : s.jsPricerRedcostCallback ≠ 0) :
    (lastSetLb ops = none → (pricerRedcostJs s ops lbIn).lbSlot = lbIn) ∧
    (∀ v : Rat, lastSetLb ops = some v → v ≠ SCIP_INVALID → (pricerRedcostJs s ops lbIn).lbSlot = v) ∧
    (∀ v : Rat, lastSetLb ops = some v → v = SCIP_INVALID → (pricerRedcostJs s ops lbIn).lbSlot = lbIn) := by
  have hcalled : ((redcostEntry s).jsPricerRedcostCallback != 0) = true := by
    have hfl : (redcostEntry s).jsPricerRedcostCallback = s.jsPricerRedcostCallback := rfl
    rw [hfl]
    exact bne_iff_ne.mpr hflag
  have hlb := foldlRun_lb ops (redcostEntry s)
  obtain ⟨_, _, hac⟩ := redcostAbortCheck_preserves (ops.foldl runPricerOp (redcostEntry s))
  have hentry : (redcostEntry s).pricing.pendingLowerbound = SCIP_INVALID := rfl
  simp only [pricerRedcostJs, hcalled, if_true]
  rw [hac, hlb, hentry]
  refine ⟨?_, ?_, ?_⟩
  · intro hnone
    rw [hnone]
    simp
  · intro v hv hvne
    rw [hv]
    simp [hvne]
  · intro v hv hveq
    rw [hv]
    simp [hveq]

set_option maxRecDepth 8000 in
/-- Witness for C8 (amended): the external routine sets lower bound 3; the
    slot (prior value 7) receives 3. -/
theorem redcost_lowerbound_applied_witness :
    (pricerRedcostJs { baseState with jsPricerRedcostCallback := 1 } [PricerOp.setLowerbound 3] 7).lbSlot = 3 :=
  (redcost_lowerbound_applied { baseState with jsPricerRedcostCallback := 1 } [PricerOp.setLowerbound 3] 7
    (by decide)).2.1 3 rfl (by decide)

/-- C9: a hook whose enable flag is 0 never calls out to the external
    routine, for all four hooks: incumbent-found, node-explored,
    reduced-cost pricing and Farkas pricing. -/
theorem disabled_hook_no_callout (s : ApiState) (bestSol : Option Rat)
    (ops : List PricerOp) (lbIn : Rat) (hasLP : Bool) :
    (s.jsIncumbentCallback = 0 → eventExecBestSol s bestSol = false) ∧
    (s.jsNodeCallback = 0 → eventExecNode s = false) ∧
    (s.jsPricerRedcostCallback = 0 → (pricerRedcostJs s ops lbIn).calledOut = false) ∧
    (s.jsPricerFarkasCallback = 0 → (pricerFarkasJs s hasLP ops).calledOut = false) := by
  refine ⟨?_, ?_, ?_, ?_⟩
  · intro h
    simp [eventExecBestSol, h]
  · intro h
    simp [eventExecNode, h]
  · intro h
    have hfl : (redcostEntry s).jsPricerRedcostCallback = s.jsPricerRedcostCallback := rfl
    simp [pricerRedcostJs, hfl, h]
  · intro h
    cases hasLP with
    | false => rfl
    | true =>
        have hfl : (farkasEntry s).jsPricerFarkasCallback = s.jsPricerFarkasCallback := rfl
        simp [pricerFarkasJs, hfl, h]

/-- Witness for C9 at the base state, whose four callback flags are all 0. -/
theorem disabled_hook_no_callout_witness :
    eventExecBestSol baseState (some 1) = false ∧
    eventExecNode baseState = false ∧
    (pricerRedcostJs baseState [] 0).calledOut = false ∧
    (pricerFarkasJs baseState true []).calledOut = false := by
  obtain ⟨a, b, c, d⟩ := disabled_hook_no_callout baseState (some 1) [] 0 true
  exact ⟨a rfl, b rfl, c rfl, d rfl⟩

theorem getByHandle_empty (cap : Nat) (h : Int) : getByHandle ⟨[], cap⟩ h = none := by
  simp only [getByHandle, List.length_nil, Nat.cast_zero]
  rw [if_pos (by omega)]

/-- C5: after scip_reset, scip_problem_clear or the reset performed by
    scip_problem_begin, every handle resolves to not-found in all three
    registries (the latter two act only when an instance exists). -/
theorem reset_invalidates_handles (s : ApiState) (h : Int)
    (nm mx cOk oOk : Bool) (hinst : s.hasInstance = true) :
    getByHandle (scip_reset s).vars h = none ∧
    getByHandle (scip_reset s).conss h = none ∧
    getByHandle (scip_reset s).rows h = none ∧
    getByHandle (scip_problem_clear s).2.vars h = none ∧
    getByHandle (scip_problem_clear s).2.conss h = none ∧
    getByHandle (scip_problem_clear s).2.rows h = none ∧
    getByHandle (scip_problem_begin s nm mx cOk oOk).2.vars h = none ∧
    getByHandle (scip_problem_begin s nm mx cOk oOk).2.conss h = none ∧
    getByHandle (scip_problem_begin s nm mx cOk oOk).2.rows h = none := by
  have hpc : (scip_problem_clear s).2 =
      { clearRegistries (resetPricingState (clearCurrentProblem s)) with jsPricerIncluded := false, jsPricerRedcostCallback := 0, jsPricerFarkasCallback := 0 } := by
    simp [scip_problem_clear, hinst]
  have hpb : (scip_problem_begin s nm mx cOk oOk).2 =
      { clearRegistries (resetPricingState (clearCurrentProblem s)) with jsPricerIncluded := false, jsPricerRedcostCallback := 0, jsPricerFarkasCallback := 0 } := by
    simp only [scip_problem_begin, hinst]
    cases cOk <;> cases oOk <;> simp
  refine ⟨getByHandle_empty 0 h, getByHandle_empty 0 h, getByHandle_empty 0 h, ?_, ?_, ?_, ?_, ?_, ?_⟩
  · rw [hpc]
    exact getByHandle_empty 0 h
  · rw [hpc]
    exact getByHandle_empty 0 h
  · rw [hpc]
    exact getByHandle_empty 0 h
  · rw [hpb]
    exact getByHandle_empty 0 h
  · rw [hpb]
    exact getByHandle_empty 0 h
  · rw [hpb]
    exact getByHandle_empty 0 h

/-- Witness for C5 at a state holding one registered object in each of the
    three registries, resolving handle 1 after each reset. -/
theorem reset_invalidates_handles_witness :
    getByHandle (scip_reset { baseState with vars := ⟨[5], 64⟩, conss := ⟨[6], 64⟩, rows := ⟨[7], 64⟩ }).vars 1 = none ∧
    getByHandle (scip_reset { baseState with vars := ⟨[5], 64⟩, conss := ⟨[6], 64⟩, rows := ⟨[7], 64⟩ }).conss 1 = none ∧
    getByHandle (scip_reset { baseState with vars := ⟨[5], 64⟩, conss := ⟨[6], 64⟩, rows := ⟨[7], 64⟩ }).rows 1 = none ∧
    getByHandle (scip_problem_clear { baseState with vars := ⟨[5], 64⟩, conss := ⟨[6], 64⟩, rows := ⟨[7], 64⟩ }).2.vars 1 = none ∧
    getByHandle (scip_problem_clear { baseState with vars := ⟨[5], 64⟩, conss := ⟨[6], 64⟩, rows := ⟨[7], 64⟩ }).2.conss 1 = none ∧
    getByHandle (scip_problem_clear { baseState with vars := ⟨[5], 64⟩, conss := ⟨[6], 64⟩, rows := ⟨[7], 64⟩ }).2.rows 1 = none ∧
    getByHandle (scip_problem_begin { baseState with vars := ⟨[5], 64⟩, conss := ⟨[6], 64⟩, rows := ⟨[7], 64⟩ } true false true true).2.vars 1 = none ∧
    getByHandle (scip_problem_begin { baseState with vars := ⟨[5], 64⟩, conss := ⟨[6], 64⟩, rows := ⟨[7], 64⟩ } true false true true).2.conss 1 = none ∧
    getByHandle (scip_problem_begin { baseState with vars := ⟨[5], 64⟩, conss := ⟨[6], 64⟩, rows := ⟨[7], 64⟩ } true false true true).2.rows 1 = none :=
  reset_invalidates_handles { baseState with vars := ⟨[5], 64⟩, conss := ⟨[6], 64⟩, rows := ⟨[7], 64⟩ } 1 true false true true rfl

/-- C7 counterexample: an invalid variable handle passed to
    scip_pricer_add_var_to_rows_batch returns -1 and marks the round
    must-abort, but does NOT request a solve interrupt — the interrupt
    counter stays at 0 instead of rising by one. -/
theorem injection_handle_error_no_interrupt_cex :
    (scip_pricer_add_var_to_rows_batch baseState 1 (some []) (some []) []).1 = -1 ∧
    (scip_pricer_add_var_to_rows_batch baseState 1 (some []) (some []) []).2.pricing.pendingAbortround = true ∧
    (scip_pricer_add_var_to_rows_batch baseState 1 (some []) (some []) []).2.pricing.pendingResult = SCIP_DIDNOTRUN ∧
    (scip_pricer_add_var_to_rows_batch baseState 1 (some []) (some []) []).2.interrupts = 0 ∧
    (scip_pricer_add_var_to_rows_batch baseState 1 (some []) (some []) []).2.interrupts ≠ baseState.interrupts + 1 := by
  refine ⟨?_, ?_, ?_, ?_, ?_⟩ <;> decide

/-- C7 (amended): a handle error (invalid variable, row, or constraint
    handle, or null arguments) during pricer column injection makes the
    operation return -1 and mark the round must-abort (abortRound set,
    result DIDNOTRUN) while issuing no solve-interrupt request itself; the
    interrupt is then requested at the exit of the enclosing pricing round
    because abortRound is set (the operations request an interrupt directly
    only when a native add call fails). -/
theorem injection_handle_error_spec (s : ApiState)
    (varIdBad varIdGood : Int) (rowIds : List Int) (vals : List Rat) (ok : List Bool)
    (nv : Nat) (cOk aOk : Bool)
    (hinst : s.hasInstance = true)
    (hbad : getVarByHandle s varIdBad = none)
    (hgood : (getVarByHandle s varIdGood).isSome = true)
    (hrow : rowIds.all (fun hh => (getRowByHandle s hh).isSome) = false) :
    ((scip_pricer_add_var_to_rows_batch s varIdBad (some rowIds) (some vals) ok).1 = -1 ∧
     (scip_pricer_add_var_to_rows_batch s varIdBad (some rowIds) (some vals) ok).2 = markRoundAbort s ∧
     (markRoundAbort s).pricing.pendingAbortround = true ∧
     (markRoundAbort s).pricing.pendingResult = SCIP_DIDNOTRUN ∧
     (markRoundAbort s).interrupts = s.interrupts) ∧
    ((scip_pricer_add_var_to_rows_batch s varIdGood (some rowIds) (some vals) ok).1 = -1 ∧
     (scip_pricer_add_var_to_rows_batch s varIdGood (some rowIds) (some vals) ok).2 = markRoundAbort s) ∧
    ((scip_pricer_add_var_to_conss_batch s varIdBad none (some vals) ok).1 = -1 ∧
     (scip_pricer_add_var_to_conss_batch s varIdBad none (some vals) ok).2 = markRoundAbort s) ∧
    ((scip_pricer_add_priced_var s none nv cOk aOk).1 = -1 ∧
     (scip_pricer_add_priced_var s none nv cOk aOk).2 = markRoundAbort s) ∧
    (∀ t : ApiState, t.pricing.pendingAbortround = true →
      (redcostAbortCheck t).interrupts = t.interrupts + 1 ∧
      (redcostAbortCheck t).pricing.pendingResult = SCIP_DIDNOTRUN) := by
  obtain ⟨w, hw⟩ := Option.isSome_iff_exists.mp hgood
  refine ⟨?_, ?_, ?_, ?_, ?_⟩
  · have hA : scip_pricer_add_var_to_rows_batch s varIdBad (some rowIds) (some vals) ok = (-1, markRoundAbort s) := by
      simp [scip_pricer_add_var_to_rows_batch, hinst, hbad]
    rw [hA]
    exact ⟨rfl, rfl, rfl, rfl, rfl⟩
  · have hB : scip_pricer_add_var_to_rows_batch s varIdGood (some rowIds) (some vals) ok = (-1, markRoundAbort s) := by
      simp [scip_pricer_add_var_to_rows_batch, hinst, hw, hrow]
    rw [hB]
    exact ⟨rfl, rfl⟩
  · have hC : scip_pricer_add_var_to_conss_batch s varIdBad none (some vals) ok = (-1, markRoundAbort s) := by
      simp [scip_pricer_add_var_to_conss_batch]
    rw [hC]
    exact ⟨rfl, rfl⟩
  · have hD : scip_pricer_add_priced_var s none nv cOk aOk = (-1, markRoundAbort s) := by
      simp [scip_pricer_add_priced_var]
    rw [hD]
    exact ⟨rfl, rfl⟩
  · intro t ht
    simp [redcostAbortCheck, ht]

/-- Witness for C7 (amended): one registered variable (handle 1), handle 2
    invalid, row handle 1 invalid in the empty row registry. -/
theorem injection_handle_error_spec_witness :
    (scip_pricer_add_var_to_rows_batch { baseState with vars := ⟨[5], 64⟩ } 2 (some [1]) (some []) []).1 = -1 ∧
    (scip_pricer_add_var_to_rows_batch { baseState with vars := ⟨[5], 64⟩ } 2 (some [1]) (some []) []).2 = markRoundAbort { baseState with vars := ⟨[5], 64⟩ } ∧
    (markRoundAbort { baseState with vars := ⟨[5], 64⟩ }).pricing.pendingAbortround = true ∧
    (markRoundAbort { baseState with vars := ⟨[5], 64⟩ }).pricing.pendingResult = SCIP_DIDNOTRUN ∧
    (markRoundAbort { baseState with vars := ⟨[5], 64⟩ }).interrupts = { baseState with vars := ⟨[5], 64⟩ }.interrupts :=
  (injection_handle_error_spec { baseState with vars := ⟨[5], 64⟩ } 2 1 [1] [] [] 9 true true
    rfl (by decide) (by decide) (by decide)).1

/-- C10: scip_solve returns -1 exactly when no solver instance exists or the
    native SCIPsolve call fails, and in every other case returns one of the
    documented status codes 0 (optimal), 1 (infeasible), 2 (unbounded),
    3 (time limit) or 4 (other). -/
theorem scip_solve_status_range (s : ApiState) (solveOk : Bool) (status : ScipStatus) :
    ((scip_solve s solveOk status).1 = -1 ↔ (s.hasInstance = false ∨ solveOk = false)) ∧
    (s.hasInstance = true → solveOk = true →
      ((scip_solve s solveOk status).1 = 0 ∨ (scip_solve s solveOk status).1 = 1 ∨
       (scip_solve s solveOk status).1 = 2 ∨ (scip_solve s solveOk status).1 = 3 ∨
       (scip_solve s solveOk status).1 = 4)) := by
  cases hi : s.hasInstance <;> cases ho : solveOk <;> cases status <;>
    simp [scip_solve, statusToCode, hi, ho]

/-- Witness for C10: with an instance and a successful native solve at
    status optimal, the returned code is in the documented range. -/
theorem scip_solve_status_range_witness :
    (scip_solve baseState true ScipStatus.optimal).1 = 0 ∨ (scip_solve baseState true ScipStatus.optimal).1 = 1 ∨
    (scip_solve baseState true ScipStatus.optimal).1 = 2 ∨ (scip_solve baseState true ScipStatus.optimal).1 = 3 ∨
    (scip_solve baseState true ScipStatus.optimal).1 = 4 :=
  (scip_solve_status_range baseState true ScipStatus.optimal).2 rfl rfl
